import Mathlib

/-!
Verification of the Zoom record/upload/transcribe/summarize pipeline.

Strings from the JavaScript source are embedded as `List Char`; the regular
expressions used by the source are embedded as leftmost-match scanners; the
stateful and asynchronous parts (subprocess handles, remote API calls) are
embedded as explicit state passing over environments that record the outcome
of each external operation.
-/

/-- JavaScript regex character class d: the ASCII digits. -/
def isDigit (c : Char) : Bool := decide ('0' ≤ c) && decide (c ≤ '9')

/-- Leftmost-match regex scanning: try the matcher at every suffix, from the
left, and return the first capture.  This is the semantics of
`String.prototype.match` with a non-global non-anchored regex. -/
def scanFirst (m : List Char → Option (List Char)) : List Char → Option (List Char)
  | [] => none
  | c :: cs =>
    match m (c :: cs) with
    | some r => some r
    | none => scanFirst m cs

/-- Matcher for the source regex `/j/(d+)` anchored at the head of the list:
the literal characters `/j/` followed by a maximal nonempty digit run. -/
def jMatchAt (l : List Char) : Option (List Char) :=
  match l with
  | a :: b :: c :: rest =>
    if a = '/' ∧ b = 'j' ∧ c = '/' then
      let ds := rest.takeWhile isDigit
      if ds = [] then none else some ds
    else none
  | _ => none

/-- Matcher for the source regex `(d{9,11})` anchored at the head of the
list: at least 9 digits must follow, and greedy matching takes at most 11. -/
def bareMatchAt (l : List Char) : Option (List Char) :=
  let ds := l.takeWhile isDigit
  if 9 ≤ ds.length then some (ds.take 11) else none

/-- The call `meetingLink.match` with the slash-j-slash-digits regex from joinZoomMeeting. -/
def findJMatch (link : List Char) : Option (List Char) := scanFirst jMatchAt link

/-- The call `meetingLink.match` with the bare 9-to-11-digit regex from joinZoomMeeting. -/
def findBare (link : List Char) : Option (List Char) := scanFirst bareMatchAt link

/-- The meeting-identifier extraction of joinZoomMeeting: first the `/j/`
regex, then the bare 9-to-11-digit fallback, and `none` (the thrown
`Could not extract Meeting ID` error) when both fail. -/
def extractMeetingId (link : List Char) : Option (List Char) :=
  match findJMatch link with
  | some ds => some ds
  | none => findBare link

/-- Declarative reading of the spec: the link contains a `/j/` path segment
followed by at least one digit. -/
def HasJDigits (link : List Char) : Prop :=
  ∃ pre d rest, link = pre ++ '/' :: 'j' :: '/' :: d :: rest ∧ isDigit d = true

/-- Declarative reading of the spec: the link contains a run of at least 9
consecutive digits (exactly where the regex `d{9,11}` can match). -/
def HasBareRun (link : List Char) : Prop :=
  ∃ pre run post, link = pre ++ run ++ post ∧ run.length = 9 ∧ ∀ c ∈ run, isDigit c = true

/- ### Generic scanning lemmas -/

theorem scanFirst_sound (m : List Char → Option (List Char)) :
    ∀ l r, scanFirst m l = some r → ∃ pre suf, l = pre ++ suf ∧ m suf = some r := by
  intro l
  induction l with
  | nil => intro r h; simp [scanFirst] at h
  | cons c cs ih =>
    intro r h
    rw [scanFirst] at h
    cases hm : m (c :: cs) with
    | some r0 =>
      rw [hm] at h
      exact ⟨[], c :: cs, rfl, by simpa using hm ▸ h⟩
    | none =>
      rw [hm] at h
      obtain ⟨pre, suf, hdec, hmat⟩ := ih r h
      exact ⟨c :: pre, suf, by simp [hdec], hmat⟩

theorem scanFirst_complete (m : List Char → Option (List Char)) :
    ∀ pre c cs r, m (c :: cs) = some r →
      scanFirst m (pre ++ c :: cs) ≠ none := by
  intro pre
  induction pre with
  | nil =>
    intro c cs r hm
    simp only [List.nil_append, scanFirst, hm]
    exact fun h => by cases h
  | cons p pre' ih =>
    intro c cs r hm
    simp only [List.cons_append, scanFirst]
    cases hm0 : m (p :: (pre' ++ c :: cs)) with
    | some r0 => exact fun h => by cases h
    | none => exact ih c cs r hm

/- ### takeWhile helpers -/

theorem dropWhile_head_false (p : Char → Bool) :
    ∀ (l : List Char) (c : Char) (r : List Char), l.dropWhile p = c :: r → p c = false := by
  intro l
  induction l with
  | nil => intro c r h; simp [List.dropWhile] at h
  | cons a l' ih =>
    intro c r h
    rw [List.dropWhile] at h
    cases hp : p a with
    | true => rw [hp] at h; exact ih c r h
    | false => rw [hp] at h; cases h; exact hp

theorem jMatchAt_eq_some (l ds : List Char) (h : jMatchAt l = some ds) :
    ∃ rest, l = '/' :: 'j' :: '/' :: rest ∧ ds = rest.takeWhile isDigit ∧ ds ≠ [] := by
  match l with
  | [] => simp [jMatchAt] at h
  | [a] => simp [jMatchAt] at h
  | [a, b] => simp [jMatchAt] at h
  | a :: b :: c :: rest =>
    rw [jMatchAt] at h
    by_cases habc : a = '/' ∧ b = 'j' ∧ c = '/'
    · rw [if_pos habc] at h
      obtain ⟨ha, hb, hc⟩ := habc
      subst ha; subst hb; subst hc
      by_cases hds : rest.takeWhile isDigit = []
      · simp [hds] at h
      · rw [if_neg hds] at h
        simp only [Option.some.injEq] at h
        exact ⟨rest, rfl, h.symm, h ▸ hds⟩
    · rw [if_neg habc] at h
      cases h

theorem jMatchAt_at_digit (rest : List Char) (d : Char) (tail : List Char)
    (hd : isDigit d = true) (hrest : rest = d :: tail) :
    jMatchAt ('/' :: 'j' :: '/' :: rest) = some (rest.takeWhile isDigit) := by
  rw [jMatchAt]
  rw [if_pos ⟨rfl, rfl, rfl⟩]
  have hne : rest.takeWhile isDigit ≠ [] := by
    subst hrest
    rw [List.takeWhile_cons_of_pos hd]
    exact fun h => by cases h
  rw [if_neg hne]

theorem takeWhile_ne_nil_head (p : Char → Bool) (l : List Char) (h : l.takeWhile p ≠ []) :
    ∃ d t, l = d :: t ∧ p d = true := by
  cases l with
  | nil => simp [List.takeWhile] at h
  | cons d t =>
    cases hp : p d with
    | true => exact ⟨d, t, rfl, hp⟩
    | false => rw [List.takeWhile_cons_of_neg (by simp [hp])] at h; exact absurd rfl h

theorem findJMatch_sound (link ds : List Char) (h : findJMatch link = some ds) :
    ∃ pre rest, link = pre ++ '/' :: 'j' :: '/' :: rest ∧
      ds = rest.takeWhile isDigit ∧ ds ≠ [] := by
  obtain ⟨pre, suf, hdec, hmat⟩ := scanFirst_sound jMatchAt link ds h
  obtain ⟨rest, hsuf, hds, hne⟩ := jMatchAt_eq_some suf ds hmat
  exact ⟨pre, rest, by rw [hdec, hsuf], hds, hne⟩

theorem findJMatch_complete (link : List Char) (h : HasJDigits link) :
    findJMatch link ≠ none := by
  obtain ⟨pre, d, rest, hdec, hd⟩ := h
  have hm := jMatchAt_at_digit (d :: rest) d rest hd rfl
  subst hdec
  exact scanFirst_complete jMatchAt pre '/' ('j' :: '/' :: d :: rest)
    ((d :: rest).takeWhile isDigit) hm

theorem findJMatch_some_hasJ (link ds : List Char) (h : findJMatch link = some ds) :
    HasJDigits link := by
  obtain ⟨pre, rest, hdec, hds, hne⟩ := findJMatch_sound link ds h
  have hrest : rest.takeWhile isDigit ≠ [] := hds ▸ hne
  obtain ⟨d, t, hr, hd⟩ := takeWhile_ne_nil_head isDigit rest hrest
  exact ⟨pre, d, t, by rw [hdec, hr], hd⟩

theorem bareMatchAt_pos (l : List Char) (h : 9 ≤ (l.takeWhile isDigit).length) :
    bareMatchAt l = some ((l.takeWhile isDigit).take 11) := by
  simp [bareMatchAt, h]

theorem bareMatchAt_eq_some (l ds : List Char) (h : bareMatchAt l = some ds) :
    ds = (l.takeWhile isDigit).take 11 ∧ 9 ≤ (l.takeWhile isDigit).length := by
  rw [bareMatchAt] at h
  by_cases h9 : 9 ≤ (l.takeWhile isDigit).length
  · rw [if_pos h9] at h
    exact ⟨(Option.some.injEq _ _ ▸ h).symm, h9⟩
  · rw [if_neg h9] at h; cases h

theorem findBare_sound (link ds : List Char) (h : findBare link = some ds) :
    ∃ pre post, link = pre ++ ds ++ post ∧ 9 ≤ ds.length ∧ ds.length ≤ 11 ∧
      ∀ c ∈ ds, isDigit c = true := by
  obtain ⟨pre, suf, hdec, hmat⟩ := scanFirst_sound bareMatchAt link ds h
  obtain ⟨hds, h9⟩ := bareMatchAt_eq_some suf ds hmat
  have hsuf : suf = ds ++ ((suf.takeWhile isDigit).drop 11 ++ suf.dropWhile isDigit) := by
    conv_lhs => rw [← List.takeWhile_append_dropWhile (p := isDigit) (l := suf)]
    rw [← List.append_assoc]
    rw [hds, List.take_append_drop]
  refine ⟨pre, (suf.takeWhile isDigit).drop 11 ++ suf.dropWhile isDigit, ?_, ?_, ?_, ?_⟩
  · rw [hdec]
    conv_lhs => rw [hsuf]
    rw [List.append_assoc]
  · rw [hds, List.length_take]
    omega
  · rw [hds, List.length_take]
    omega
  · intro c hc
    rw [hds] at hc
    exact List.mem_takeWhile_imp (List.take_subset 11 _ hc)

theorem findBare_complete (link : List Char) (h : HasBareRun link) :
    findBare link ≠ none := by
  obtain ⟨pre, run, post, hdec, hlen, hdig⟩ := h
  have htw : (run ++ post).takeWhile isDigit = run ++ post.takeWhile isDigit := by
    rw [List.takeWhile_append_of_pos hdig]
  have h9 : 9 ≤ ((run ++ post).takeWhile isDigit).length := by
    rw [htw, List.length_append]
    omega
  have hm := bareMatchAt_pos (run ++ post) h9
  cases hrun : run with
  | nil => rw [hrun] at hlen; simp at hlen
  | cons r0 run' =>
    rw [hrun] at hm
    subst hdec
    rw [hrun, List.append_assoc, List.cons_append]
    exact scanFirst_complete bareMatchAt pre r0 (run' ++ post) _ hm

theorem findBare_some_hasBare (link ds : List Char) (h : findBare link = some ds) :
    HasBareRun link := by
  obtain ⟨pre, post, hdec, h9, _, hdig⟩ := findBare_sound link ds h
  refine ⟨pre, ds.take 9, ds.drop 9 ++ post, ?_, ?_, ?_⟩
  · rw [hdec, ← List.append_assoc (pre ++ List.take 9 ds) (List.drop 9 ds) post,
      List.append_assoc pre (List.take 9 ds) (List.drop 9 ds), List.take_append_drop]
  · rw [List.length_take]; omega
  · intro c hc
    exact hdig c (List.take_subset 9 ds hc)

/-- C1: joinZoomMeeting identifier extraction.  A link with a `/j/` segment
followed by digits yields exactly the maximal digit run after the `/j/`; a
link without such a segment but containing at least 9 consecutive digits
yields a 9-to-11-digit run occurring in the link; a link with neither fails
(the thrown link-parse error, modelled as `none`) before any launch. -/
theorem C1_meeting_id_extraction (link : List Char) :
    (HasJDigits link →
      ∃ ds pre post, extractMeetingId link = some ds ∧ ds ≠ [] ∧
        (∀ c ∈ ds, isDigit c = true) ∧
        link = pre ++ '/' :: 'j' :: '/' :: (ds ++ post) ∧
        (post = [] ∨ ∃ c post2, post = c :: post2 ∧ isDigit c = false)) ∧
    (¬ HasJDigits link → HasBareRun link →
      ∃ ds pre post, extractMeetingId link = some ds ∧
        9 ≤ ds.length ∧ ds.length ≤ 11 ∧ (∀ c ∈ ds, isDigit c = true) ∧
        link = pre ++ ds ++ post) ∧
    (¬ HasJDigits link → ¬ HasBareRun link → extractMeetingId link = none) := by
  refine ⟨?_, ?_, ?_⟩
  · intro h
    have hne := findJMatch_complete link h
    cases hj : findJMatch link with
    | none => exact absurd hj hne
    | some ds =>
      obtain ⟨pre, rest, hdec, hds, hdsne⟩ := findJMatch_sound link ds hj
      refine ⟨ds, pre, rest.dropWhile isDigit, ?_, hdsne, ?_, ?_, ?_⟩
      · rw [extractMeetingId, hj]
      · intro c hc
        exact List.mem_takeWhile_imp (hds ▸ hc)
      · rw [hdec, hds, List.takeWhile_append_dropWhile]
      · cases hdw : rest.dropWhile isDigit with
        | nil => exact Or.inl rfl
        | cons c p2 =>
          exact Or.inr ⟨c, p2, rfl, dropWhile_head_false isDigit rest c p2 hdw⟩
  · intro hnj hb
    have hjn : findJMatch link = none := by
      cases hj : findJMatch link with
      | none => rfl
      | some ds => exact absurd (findJMatch_some_hasJ link ds hj) hnj
    have hne := findBare_complete link hb
    cases hbr : findBare link with
    | none => exact absurd hbr hne
    | some ds =>
      obtain ⟨pre, post, hdec, h9, h11, hdig⟩ := findBare_sound link ds hbr
      exact ⟨ds, pre, post, by rw [extractMeetingId, hjn, hbr], h9, h11, hdig, hdec⟩
  · intro hnj hnb
    have hjn : findJMatch link = none := by
      cases hj : findJMatch link with
      | none => rfl
      | some ds => exact absurd (findJMatch_some_hasJ link ds hj) hnj
    have hbn : findBare link = none := by
      cases hb : findBare link with
      | none => rfl
      | some ds => exact absurd (findBare_some_hasBare link ds hb) hnb
    rw [extractMeetingId, hjn, hbn]

theorem C1_meeting_id_extraction_witness :
    ∃ ds pre post,
      extractMeetingId "https://zoom.us/j/123456789".data = some ds ∧ ds ≠ [] ∧
      (∀ c ∈ ds, isDigit c = true) ∧
      "https://zoom.us/j/123456789".data = pre ++ '/' :: 'j' :: '/' :: (ds ++ post) ∧
      (post = [] ∨ ∃ c post2, post = c :: post2 ∧ isDigit c = false) :=
  (C1_meeting_id_extraction "https://zoom.us/j/123456789".data).1
    ⟨"https://zoom.us".data, '1', "23456789".data, by decide, by decide⟩

/- ### Screen recorder: stop (src/screenRecorder.js, stopScreenRecording) -/

/-- Module-level state of screenRecorder.js: the held subprocess handle
(`ffmpegProcess`) and the output path variable (`recordingPath`). -/
structure RecorderState where
  ffmpegProcess : Option Unit
  recordingPath : Option (List Char)

/-- The three ways the stop promise can settle. -/
inductive StopOutcome where
  | resolvedNull
  | resolvedPath (p : Option (List Char))
  | rejected
deriving DecidableEq

/-- stopScreenRecording: with no held handle, resolve null immediately;
otherwise send the quit byte, and on the close event with exit code
`code === 0 || code === null` stat the file (resolve the path when it exists,
reject when the stat fails), reject on any other code, and clear the handle
after every close. `exitCode = none` embeds the JavaScript `null` code. -/
def stopScreenRecording (st : RecorderState) (exitCode : Option Int) (fileExists : Bool) :
    StopOutcome × RecorderState :=
  match st.ffmpegProcess with
  | none => (StopOutcome.resolvedNull, st)
  | some _ =>
    if exitCode = some 0 ∨ exitCode = none then
      if fileExists then
        (StopOutcome.resolvedPath st.recordingPath, { st with ffmpegProcess := none })
      else
        (StopOutcome.rejected, { st with ffmpegProcess := none })
    else
      (StopOutcome.rejected, { st with ffmpegProcess := none })

/-- C2: stopScreenRecording with no held handle resolves null with the state
untouched; with a held handle it resolves with the recording path exactly when
the exit code is 0 or null and the file exists, rejects in every other
completed-exit outcome, and the handle is cleared in all of them. -/
theorem C2_stop_screen_recording (st : RecorderState) (exitCode : Option Int)
    (fileExists : Bool) :
    (st.ffmpegProcess = none →
      stopScreenRecording st exitCode fileExists = (StopOutcome.resolvedNull, st)) ∧
    (st.ffmpegProcess ≠ none →
      ((stopScreenRecording st exitCode fileExists).1 = StopOutcome.resolvedPath st.recordingPath ↔
        (exitCode = some 0 ∨ exitCode = none) ∧ fileExists = true) ∧
      ((stopScreenRecording st exitCode fileExists).1 = StopOutcome.rejected ↔
        ¬ ((exitCode = some 0 ∨ exitCode = none) ∧ fileExists = true)) ∧
      (stopScreenRecording st exitCode fileExists).2.ffmpegProcess = none) := by
  obtain ⟨hproc, hpath⟩ := st
  cases hproc with
  | none =>
    refine ⟨fun _ => rfl, fun h => absurd rfl h⟩
  | some u =>
    constructor
    · intro h; cases h
    intro _
    by_cases hc : exitCode = some 0 ∨ exitCode = none
    · cases hf : fileExists with
      | true =>
        refine ⟨?_, ?_, ?_⟩ <;> simp [stopScreenRecording, hc, hf]
      | false =>
        refine ⟨?_, ?_, ?_⟩ <;> simp [stopScreenRecording, hc, hf]
    · refine ⟨?_, ?_, ?_⟩ <;> simp [stopScreenRecording, hc]

theorem C2_stop_screen_recording_witness :
    ((stopScreenRecording ⟨some (), some "r.mp4".data⟩ (some 0) true).1 =
        StopOutcome.resolvedPath (some "r.mp4".data) ↔
      ((some 0 : Option Int) = some 0 ∨ (some 0 : Option Int) = none) ∧ true = true) ∧
    (stopScreenRecording ⟨some (), some "r.mp4".data⟩ (some 0) true).2.ffmpegProcess = none :=
  ⟨((C2_stop_screen_recording ⟨some (), some "r.mp4".data⟩ (some 0) true).2
      (by simp)).1,
   ((C2_stop_screen_recording ⟨some (), some "r.mp4".data⟩ (some 0) true).2
      (by simp)).2.2⟩

/- ### Screen recorder: start quality presets (src/screenRecorder.js) -/

/-- A row of the qualitySettings object literal. -/
structure QualityPreset where
  resolution : List Char
  bitrate : List Char
  framerate : Nat
deriving DecidableEq

/-- String keys every JavaScript object literal inherits from
Object.prototype; bracket access on the qualitySettings literal finds these
on the prototype chain, and each resolves to a truthy value (a function, or
the prototype object itself for the dunder proto accessor). -/
def objectProtoKeys : List (List Char) :=
  ["constructor".data, "hasOwnProperty".data, "isPrototypeOf".data,
   "propertyIsEnumerable".data, "toLocaleString".data, "toString".data,
   "valueOf".data, "__proto__".data, "__defineGetter__".data,
   "__defineSetter__".data, "__lookupGetter__".data, "__lookupSetter__".data]

/-- What `qualitySettings[quality]` evaluates to in JavaScript: one of the
three own data properties, a truthy value inherited from Object.prototype,
or undefined. -/
inductive JsLookup where
  | own (p : QualityPreset)
  | inherited
  | undef
deriving DecidableEq

/-- The bracket lookup `qualitySettings[quality]` from startScreenRecording,
including the prototype chain of the object literal. -/
def qualityLookup (q : List Char) : JsLookup :=
  if q = "high".data then JsLookup.own ⟨"1920x1080".data, "5000k".data, 30⟩
  else if q = "medium".data then JsLookup.own ⟨"1280x720".data, "2500k".data, 30⟩
  else if q = "low".data then JsLookup.own ⟨"854x480".data, "1000k".data, 24⟩
  else if q ∈ objectProtoKeys then JsLookup.inherited
  else JsLookup.undef

/-- The value bound to `settings`: a preset object, or a truthy inherited
prototype member (whose resolution/bitrate/framerate fields are undefined). -/
inductive SelectedSettings where
  | preset (p : QualityPreset)
  | protoMember
deriving DecidableEq

/-- `settings` from startScreenRecording:
`qualitySettings[quality] || qualitySettings.high`.  Undefined is falsy, so
it is replaced by the high preset; an inherited prototype member is truthy,
so it is kept. -/
def selectedSettings (q : List Char) : SelectedSettings :=
  match qualityLookup q with
  | JsLookup.own p => SelectedSettings.preset p
  | JsLookup.inherited => SelectedSettings.protoMember
  | JsLookup.undef =>
    SelectedSettings.preset ⟨"1920x1080".data, "5000k".data, 30⟩

/-- `settings.framerate.toString()` from the encoder argument list: on a
preset it yields the framerate, on an inherited prototype member
`settings.framerate` is undefined and the call throws a TypeError. -/
def settingsFramerateArg : SelectedSettings → Except Unit Nat
  | SelectedSettings.preset p => Except.ok p.framerate
  | SelectedSettings.protoMember => Except.error ()

/-- C4 counterexample: the quality string toString is none of high, medium,
low, yet it does not select the default preset — bracket access finds the
truthy inherited Object.prototype member, which the or-default keeps. -/
theorem C4_quality_presets_counterexample :
    "toString".data ≠ "high".data ∧ "toString".data ≠ "medium".data ∧
    "toString".data ≠ "low".data ∧
    selectedSettings "toString".data ≠
      SelectedSettings.preset ⟨"1920x1080".data, "5000k".data, 30⟩ := by
  decide

/-- C4 (amended): high, medium and low select their presets 1920x1080 at
30 fps, 1280x720 at 30 fps and 854x480 at 24 fps; every other string that
names no inherited Object.prototype property selects the default 1920x1080
at 30 fps; a string naming an inherited Object.prototype property (such as
toString) keeps the truthy inherited value instead of the default, and
building the encoder arguments then throws a TypeError on the undefined
framerate field. -/
theorem C4_quality_presets_amended :
    selectedSettings "high".data =
      SelectedSettings.preset ⟨"1920x1080".data, "5000k".data, 30⟩ ∧
    selectedSettings "medium".data =
      SelectedSettings.preset ⟨"1280x720".data, "2500k".data, 30⟩ ∧
    selectedSettings "low".data =
      SelectedSettings.preset ⟨"854x480".data, "1000k".data, 24⟩ ∧
    (∀ q : List Char, q ≠ "high".data → q ≠ "medium".data → q ≠ "low".data →
      q ∉ objectProtoKeys →
      selectedSettings q =
        SelectedSettings.preset ⟨"1920x1080".data, "5000k".data, 30⟩) ∧
    (∀ q : List Char, q ∈ objectProtoKeys →
      selectedSettings q = SelectedSettings.protoMember ∧
      settingsFramerateArg (selectedSettings q) = Except.error ()) := by
  refine ⟨by decide, by decide, by decide, ?_, ?_⟩
  · intro q h1 h2 h3 h4
    simp [selectedSettings, qualityLookup, h1, h2, h3, h4]
  · intro q hq
    have h1 : q ≠ "high".data := fun h => by subst h; revert hq; decide
    have h2 : q ≠ "medium".data := fun h => by subst h; revert hq; decide
    have h3 : q ≠ "low".data := fun h => by subst h; revert hq; decide
    constructor
    · simp [selectedSettings, qualityLookup, h1, h2, h3, hq]
    · simp [selectedSettings, qualityLookup, h1, h2, h3, hq, settingsFramerateArg]

theorem C4_quality_presets_amended_witness :
    selectedSettings "ultra".data =
      SelectedSettings.preset ⟨"1920x1080".data, "5000k".data, 30⟩ ∧
    selectedSettings "toString".data = SelectedSettings.protoMember :=
  ⟨C4_quality_presets_amended.2.2.2.1 "ultra".data
      (by decide) (by decide) (by decide) (by decide),
    (C4_quality_presets_amended.2.2.2.2 "toString".data (by decide)).1⟩

/- ### Storage verifier (src/cloudUpload.js, uploadToCloud) -/

/-- The descriptor returned by uploadToCloud. -/
structure UploadResult where
  webUrl : List Char
  shareLink : List Char
deriving DecidableEq

/-- uploadToCloud: verify the file is accessible (`fs.access`); when it is,
return the same `file://` descriptor on both the `local` branch and the
unsupported-provider branch; when the access check throws, rethrow. -/
def uploadToCloud (filePath provider : List Char) (accessOk : Bool) :
    Except Unit UploadResult :=
  if accessOk = false then Except.error ()
  else if provider = "local".data then
    Except.ok ⟨"file://".data ++ filePath, "file://".data ++ filePath⟩
  else
    Except.ok ⟨"file://".data ++ filePath, "file://".data ++ filePath⟩

/-- C10: uploadToCloud never fails because of the provider: for every
provider string, an accessible file yields the descriptor with webUrl and
shareLink both `file://` followed by the path, and it throws exactly when the
accessibility check fails. -/
theorem C10_upload_provider_irrelevant (filePath provider : List Char) (accessOk : Bool) :
    (accessOk = true →
      uploadToCloud filePath provider accessOk =
        Except.ok ⟨"file://".data ++ filePath, "file://".data ++ filePath⟩) ∧
    (accessOk = false → uploadToCloud filePath provider accessOk = Except.error ()) := by
  constructor
  · intro h
    by_cases hp : provider = "local".data <;> simp [uploadToCloud, h, hp]
  · intro h
    simp [uploadToCloud, h]

theorem C10_upload_provider_irrelevant_witness :
    uploadToCloud "/tmp/a.mp4".data "dropbox".data true =
      Except.ok ⟨"file:///tmp/a.mp4".data, "file:///tmp/a.mp4".data⟩ := by
  have h := (C10_upload_provider_irrelevant "/tmp/a.mp4".data "dropbox".data true).1 rfl
  rw [h]
  congr 1

/- ### Summarizer (src/summary.js, generateSummary) -/

/-- JavaScript truthiness of an optional string field: absent and empty are
both falsy. -/
def truthyStr : Option (List Char) → Bool
  | none => false
  | some s => decide (s ≠ [])

/-- The transcript argument of generateSummary: a raw string, or an object
with optional transcript/text fields and its JSON.stringify rendering. -/
inductive TranscriptValue where
  | str (s : List Char)
  | obj (transcript : Option (List Char)) (text : Option (List Char)) (stringified : List Char)

/-- The extraction `transcript.transcript || transcript.text ||
JSON.stringify(transcript)` (raw strings pass through) from generateSummary. -/
def extractTranscriptText : TranscriptValue → List Char
  | TranscriptValue.str s => s
  | TranscriptValue.obj t x j =>
    if truthyStr t then t.getD [] else if truthyStr x then x.getD [] else j

/-- The fixed structured prompt template of generateSummary, up to and
including the final `Transcript:` line. -/
def summaryPromptHeader : List Char :=
  ("Please analyze the following meeting transcript and provide a comprehensive summary. Structure your response as follows:\n\n## Meeting Summary\n\n### Key Points\n[List the main topics and key points discussed]\n\n### Decisions Made\n[List any decisions or conclusions reached]\n\n### Action Items\n[List any action items, tasks, or follow-ups mentioned, including who is responsible if mentioned]\n\n### Important Details\n[Any other important information, dates, deadlines, or context]\n\n### Participants Mentioned\n[List any participants or stakeholders mentioned]\n\n---\n\nTranscript:\n").data

/-- The marker appended when the transcript exceeds the character budget. -/
def truncationMarker : List Char := "\n\n[Transcript truncated for length]".data

/-- The prompt built by generateSummary:
`transcriptText.substring(0, 30000)` followed by the marker exactly when
`transcriptText.length > 30000`. -/
def buildSummaryPrompt (text : List Char) : List Char :=
  summaryPromptHeader ++ text.take 30000 ++
    (if 30000 < text.length then truncationMarker else [])

/-- C7: the prompt includes at most the first 30000 characters of the
transcript text; a text of at most 30000 characters is included unmodified
with no marker, and a longer text is cut to exactly 30000 characters (a
proper initial segment of the text) with the truncation marker appended. -/
theorem C7_summary_truncation (text : List Char) :
    (text.length ≤ 30000 →
      buildSummaryPrompt text = summaryPromptHeader ++ text) ∧
    (30000 < text.length →
      buildSummaryPrompt text =
        summaryPromptHeader ++ text.take 30000 ++ truncationMarker ∧
      (text.take 30000).length = 30000 ∧
      ∃ rest, text = text.take 30000 ++ rest ∧ rest ≠ []) := by
  constructor
  · intro h
    rw [buildSummaryPrompt, if_neg (by omega), List.take_of_length_le h, List.append_nil]
  · intro h
    refine ⟨by rw [buildSummaryPrompt, if_pos h], ?_, ?_⟩
    · rw [List.length_take]; omega
    · refine ⟨text.drop 30000, (List.take_append_drop 30000 text).symm, ?_⟩
      intro hnil
      have := List.length_drop 30000 text
      rw [hnil] at this
      simp at this
      omega

theorem C7_summary_truncation_witness :
    buildSummaryPrompt "hello meeting".data =
      summaryPromptHeader ++ "hello meeting".data :=
  (C7_summary_truncation "hello meeting".data).1 (by decide)

/- ### Screen recorder: start (src/screenRecorder.js, startScreenRecording) -/

/-- Outcome of spawning the capture subprocess, as reported through the
process error event. -/
inductive SpawnOutcome where
  | ok
  | errENOENT
  | errOther (msg : List Char)
deriving DecidableEq

/-- Console messages the start path can emit. -/
inductive StartLog where
  | ffmpegNotFound
  | ffmpegError (msg : List Char)
  | startError (msg : List Char)
deriving DecidableEq

/-- Environment of one startScreenRecording call. -/
structure StartEnv where
  mkdirOk : Bool
  outputDir : List Char
  timestamp : List Char
  quality : List Char
  spawnOutcome : SpawnOutcome

/-- The replacement `toISOString().replace` mapping colons and dots to dashes. -/
def sanitizeTimestamp (ts : List Char) : List Char :=
  ts.map (fun c => if c = ':' ∨ c = '.' then '-' else c)

/-- The output path computed by startScreenRecording. -/
def startRecordingPath (env : StartEnv) : List Char :=
  env.outputDir ++ '/' ::
    ("zoom-recording-".data ++ sanitizeTimestamp env.timestamp ++ ".mp4".data)

/-- startScreenRecording: a mkdir failure is caught and rethrown; otherwise
the subprocess is spawned, a spawn failure only registers an error-event
handler that logs (an ENOENT gets the actionable install hint), and after the
settle delay the call returns the recording path normally. -/
def startScreenRecording (env : StartEnv) :
    Except (List Char) (List Char) × List StartLog :=
  if env.mkdirOk = false then
    (Except.error "mkdir failed".data, [StartLog.startError "mkdir failed".data])
  else
    let logs : List StartLog :=
      match env.spawnOutcome with
      | SpawnOutcome.ok => []
      | SpawnOutcome.errENOENT => [StartLog.ffmpegNotFound]
      | SpawnOutcome.errOther m => [StartLog.ffmpegError m]
    (Except.ok (startRecordingPath env), logs)

/-- C8 counterexample: with the capture binary missing (spawn reports
ENOENT), startScreenRecording still returns the recording path normally, so
no encoder-not-found error reaches the caller. -/
theorem C8_encoder_not_found_counterexample :
    (startScreenRecording
        ⟨true, "recordings".data, "ts".data, "high".data, SpawnOutcome.errENOENT⟩).1 =
      Except.ok (startRecordingPath
        ⟨true, "recordings".data, "ts".data, "high".data, SpawnOutcome.errENOENT⟩) := rfl

/-- C8 (amended): when the capture subprocess binary is missing,
startScreenRecording logs the actionable install hint on the console but
still resolves normally with the recording path; the error never reaches the
caller. -/
theorem C8_encoder_not_found_amended (env : StartEnv)
    (hmk : env.mkdirOk = true) (hsp : env.spawnOutcome = SpawnOutcome.errENOENT) :
    (startScreenRecording env).1 = Except.ok (startRecordingPath env) ∧
    StartLog.ffmpegNotFound ∈ (startScreenRecording env).2 := by
  simp [startScreenRecording, hmk, hsp]

theorem C8_encoder_not_found_amended_witness :
    (startScreenRecording
        ⟨true, "recordings".data, "t".data, "high".data, SpawnOutcome.errENOENT⟩).1 =
      Except.ok (startRecordingPath
        ⟨true, "recordings".data, "t".data, "high".data, SpawnOutcome.errENOENT⟩) ∧
    StartLog.ffmpegNotFound ∈
      (startScreenRecording
        ⟨true, "recordings".data, "t".data, "high".data, SpawnOutcome.errENOENT⟩).2 :=
  C8_encoder_not_found_amended _ rfl rfl

/- ### Transcriber (src/transcription.js, transcribeVideo) -/

/-- Terminal processing state of the uploaded remote file (the readiness
poll loops while the state is PROCESSING, so only terminal states appear). -/
inductive GeminiFinalState where
  | active
  | failed
  | otherState
deriving DecidableEq

/-- The value transcribeVideo resolves with. -/
structure TranscriptResult where
  transcript : List Char
  filePath : List Char
deriving DecidableEq

/-- Environment of one transcribeVideo call: the outcome of each external
operation in source order. -/
structure TranscribeEnv where
  apiKeyPresent : Bool
  extractResult : Except (List Char) (List Char)
  uploadResult : Except (List Char) Unit
  pollResult : Except (List Char) GeminiFinalState
  generateResult : Except (List Char) (List Char)
  writeOk : Bool
  transcriptStamp : List Char

/-- The result of transcribeVideo together with whether `fs.unlink` was
attempted on the locally extracted audio file. -/
structure TranscribeOutcome where
  result : Except (List Char) TranscriptResult
  audioUnlinkAttempted : Bool

/-- transcribeVideo: check the credential, extract audio, then inside the
inner try upload, poll to a terminal state, fail on FAILED, generate the
transcript, unlink the audio (best-effort), and write the transcript file;
the inner catch unlinks the audio (best-effort) and rethrows. -/
def transcribeVideo (outputDir : List Char) (env : TranscribeEnv) : TranscribeOutcome :=
  if env.apiKeyPresent = false then
    ⟨Except.error "GEMINI_API_KEY not found in environment variables".data, false⟩
  else
    match env.extractResult with
    | Except.error e => ⟨Except.error e, false⟩
    | Except.ok _audioPath =>
      match env.uploadResult with
      | Except.error e => ⟨Except.error e, true⟩
      | Except.ok _ =>
        match env.pollResult with
        | Except.error e => ⟨Except.error e, true⟩
        | Except.ok st =>
          if st = GeminiFinalState.failed then
            ⟨Except.error "Gemini file processing failed".data, true⟩
          else
            match env.generateResult with
            | Except.error e => ⟨Except.error e, true⟩
            | Except.ok text =>
              if env.writeOk = false then
                ⟨Except.error "write failed".data, true⟩
              else
                ⟨Except.ok ⟨text,
                    outputDir ++ '/' ::
                      ("transcript-".data ++ env.transcriptStamp ++ ".txt".data)⟩,
                  true⟩

/-- C9: once audio extraction has succeeded, every failing outcome of
transcribeVideo (upload, readiness poll, terminal FAILED state, transcript
generation) has attempted the deletion of the local audio file before the
error is re-raised. -/
theorem C9_audio_cleanup_on_failure (outputDir : List Char) (env : TranscribeEnv)
    (audioPath : List Char)
    (hkey : env.apiKeyPresent = true)
    (hex : env.extractResult = Except.ok audioPath) :
    ∀ e, (transcribeVideo outputDir env).result = Except.error e →
      (transcribeVideo outputDir env).audioUnlinkAttempted = true := by
  intro e _he
  obtain ⟨key, ex, up, po, ge, wr, stamp⟩ := env
  simp only at hkey hex
  subst hkey
  subst hex
  cases up with
  | error e0 => rfl
  | ok u =>
    cases po with
    | error e1 => rfl
    | ok st =>
      by_cases hst : st = GeminiFinalState.failed
      · simp [transcribeVideo, hst]
      · cases ge with
        | error e2 => simp [transcribeVideo, hst]
        | ok text =>
          cases hwr : wr with
          | false => simp [transcribeVideo, hst, hwr]
          | true => simp [transcribeVideo, hst, hwr]

theorem C9_audio_cleanup_on_failure_witness :
    (transcribeVideo "transcripts".data
        ⟨true, Except.ok "audio-1.mp3".data, Except.error "upload failed".data,
          Except.ok GeminiFinalState.active, Except.ok "text".data, true,
          "1".data⟩).audioUnlinkAttempted = true :=
  C9_audio_cleanup_on_failure "transcripts".data _ "audio-1.mp3".data rfl rfl
    "upload failed".data rfl

/- ### Configuration loader (src/configLoader.js, loadConfig) -/

/-- The zoom section of the configuration document. -/
structure ZoomSection where
  meetingLink : Option (List Char)
  password : Option (List Char)
  displayName : Option (List Char)

/-- The cloudStorage section. -/
structure CloudSection where
  provider : Option (List Char)
  folderName : Option (List Char)

/-- The recording section. -/
structure RecordingSection where
  outputDir : Option (List Char)
  quality : Option (List Char)

/-- The ai section. -/
structure AiSection where
  transcriptionModel : Option (List Char)
  summaryModel : Option (List Char)

/-- The schedule section. -/
structure ScheduleSection where
  enabled : Bool
  cronExpression : List Char
  timezone : Option (List Char)

/-- A parsed configuration document, before validation. -/
structure RawConfig where
  zoom : Option ZoomSection
  cloudStorage : Option CloudSection
  recording : Option RecordingSection
  ai : Option AiSection
  schedule : Option ScheduleSection

/-- The validation errors loadConfig can throw. -/
inductive ConfigError where
  | missingZoomFields
  | missingProvider
  | invalidProvider
deriving DecidableEq

/-- The fully defaulted configuration loadConfig returns. -/
structure Config where
  meetingLink : List Char
  password : Option (List Char)
  displayName : List Char
  provider : List Char
  folderName : Option (List Char)
  outputDir : List Char
  quality : List Char
  transcriptionModel : List Char
  summaryModel : List Char
  schedule : Option ScheduleSection

/-- JavaScript `a || d` over an optional string field. -/
def orDefault (o : Option (List Char)) (d : List Char) : List Char :=
  if truthyStr o then o.getD [] else d

/-- loadConfig validation and defaulting, applied to a parsed document:
missing or falsy `zoom.meetingLink` or `zoom.displayName` (or a missing zoom
section) is the first validation error; then the provider must be present and
one of google-drive, onedrive, local; then recording and ai receive their
defaults. -/
def loadConfig (raw : RawConfig) : Except ConfigError Config :=
  match raw.zoom with
  | none => Except.error ConfigError.missingZoomFields
  | some z =>
    if truthyStr z.meetingLink = false ∨ truthyStr z.displayName = false then
      Except.error ConfigError.missingZoomFields
    else
      match raw.cloudStorage with
      | none => Except.error ConfigError.missingProvider
      | some cs =>
        if truthyStr cs.provider = false then
          Except.error ConfigError.missingProvider
        else if ¬ (cs.provider.getD [] = "google-drive".data ∨
                   cs.provider.getD [] = "onedrive".data ∨
                   cs.provider.getD [] = "local".data) then
          Except.error ConfigError.invalidProvider
        else
          let recSec := raw.recording.getD ⟨none, none⟩
          let aiSec := raw.ai.getD ⟨none, none⟩
          Except.ok
            { meetingLink := z.meetingLink.getD []
              password := z.password
              displayName := z.displayName.getD []
              provider := cs.provider.getD []
              folderName := cs.folderName
              outputDir := orDefault recSec.outputDir "./recordings".data
              quality := orDefault recSec.quality "high".data
              transcriptionModel := orDefault aiSec.transcriptionModel "whisper-1".data
              summaryModel := orDefault aiSec.summaryModel "gpt-4".data
              schedule := raw.schedule }

/- ### Orchestrator (src/index.js) -/

/-- The pipeline stages index.js can invoke. -/
inductive Stage where
  | mkdirs
  | join
  | start
  | monitor
  | stop
  | quit
  | upload
  | transcribe
  | summarize
  | report
deriving DecidableEq

/-- Environment of one recording session: the outcome of each stage as the
external world would deliver it. -/
structure SessionEnv where
  mkdirOk : Bool
  joinResult : Except Unit Unit
  startResult : Except Unit (List Char)
  stopResult : Except Unit (Option (List Char))
  uploadOk : Bool
  transcribeResult : Except Unit TranscriptResult
  summaryResult : Except Unit (List Char)

/-- What one runRecordingSession invocation did: the stages invoked in
order, the file paths named by the final report, and whether the outer catch
fired. -/
structure SessionReport where
  stages : List Stage
  recording : Option (List Char)
  transcript : Option (List Char)
  summary : Option (List Char)
  failed : Bool

/-- runRecordingSession: join, start, monitor (always resolves ended), stop,
quit (never throws), upload inside its own try/catch (failure only logged),
then transcribe and summarize inside one shared try/catch (a transcription
failure skips the summary; a summary failure keeps the already-assigned
transcript path), then the final report, which prints each path only when its
variable is truthy.  Any error before the upload step jumps to the outer
catch, which re-stops the recorder when a recording path was assigned and
produces no report. -/
def runRecordingSession (env : SessionEnv) : SessionReport :=
  if env.mkdirOk = false then
    ⟨[Stage.mkdirs], none, none, none, true⟩
  else
    match env.joinResult with
    | Except.error _ => ⟨[Stage.mkdirs, Stage.join], none, none, none, true⟩
    | Except.ok _ =>
      match env.startResult with
      | Except.error _ =>
        ⟨[Stage.mkdirs, Stage.join, Stage.start], none, none, none, true⟩
      | Except.ok rp1 =>
        match env.stopResult with
        | Except.error _ =>
          ⟨[Stage.mkdirs, Stage.join, Stage.start, Stage.monitor, Stage.stop] ++
              (if rp1 = [] then [] else [Stage.stop]),
            none, none, none, true⟩
        | Except.ok rp2 =>
          let base := [Stage.mkdirs, Stage.join, Stage.start, Stage.monitor,
            Stage.stop, Stage.quit, Stage.upload]
          match env.transcribeResult with
          | Except.error _ =>
            ⟨base ++ [Stage.transcribe, Stage.report],
              if truthyStr rp2 then rp2 else none, none, none, false⟩
          | Except.ok tr =>
            match env.summaryResult with
            | Except.error _ =>
              ⟨base ++ [Stage.transcribe, Stage.summarize, Stage.report],
                if truthyStr rp2 then rp2 else none, some tr.filePath, none, false⟩
            | Except.ok sp =>
              ⟨base ++ [Stage.transcribe, Stage.summarize, Stage.report],
                if truthyStr rp2 then rp2 else none, some tr.filePath, some sp, false⟩

/-- The test `config.schedule && config.schedule.enabled` from main. -/
def scheduleOn (cfg : Config) : Bool :=
  match cfg.schedule with
  | none => false
  | some s => s.enabled

/-- What one main invocation did. -/
structure MainResult where
  exitCode : Option Nat
  stages : List Stage
  report : Option SessionReport

/-- main: load the configuration (a load failure prints and exits 1 without
running any stage); with the immediate flag, or with no enabled schedule, run
one session and exit 0; with an enabled schedule, keep the process alive and
run one session per cron fire. -/
def mainRun (raw : RawConfig) (env : SessionEnv) (nowFlag : Bool) (fires : Nat) :
    MainResult :=
  match loadConfig raw with
  | Except.error _ => ⟨some 1, [], none⟩
  | Except.ok cfg =>
    if nowFlag then
      ⟨some 0, (runRecordingSession env).stages, some (runRecordingSession env)⟩
    else if scheduleOn cfg then
      ⟨none, ((List.range fires).map (fun _ => (runRecordingSession env).stages)).flatten,
        none⟩
    else
      ⟨some 0, (runRecordingSession env).stages, some (runRecordingSession env)⟩

/-- C5: a configuration document whose zoom section is absent, or whose
zoom.meetingLink is absent, fails loading with the validation error, and main
then invokes no pipeline stage at all. In particular the join stage never
runs. -/
theorem C5_missing_meeting_link (raw : RawConfig) (env : SessionEnv)
    (nowFlag : Bool) (fires : Nat)
    (h : raw.zoom = none ∨ ∃ z, raw.zoom = some z ∧ z.meetingLink = none) :
    loadConfig raw = Except.error ConfigError.missingZoomFields ∧
    Stage.join ∉ (mainRun raw env nowFlag fires).stages := by
  have hl : loadConfig raw = Except.error ConfigError.missingZoomFields := by
    rcases h with h0 | ⟨z, hz, hml⟩
    · simp [loadConfig, h0]
    · simp [loadConfig, hz, hml, truthyStr]
  refine ⟨hl, ?_⟩
  simp [mainRun, hl]

theorem C5_missing_meeting_link_witness :
    loadConfig ⟨some ⟨none, none, some "Bot".data⟩,
        some ⟨some "local".data, none⟩, none, none, none⟩ =
      Except.error ConfigError.missingZoomFields ∧
    Stage.join ∉
      (mainRun ⟨some ⟨none, none, some "Bot".data⟩,
          some ⟨some "local".data, none⟩, none, none, none⟩
        ⟨true, Except.ok (), Except.ok "r".data, Except.ok (some "r".data), true,
          Except.error (), Except.error ()⟩ true 0).stages :=
  C5_missing_meeting_link _ _ true 0
    (Or.inr ⟨⟨none, none, some "Bot".data⟩, rfl, rfl⟩)

/-- C6: when the transcription stage throws in an immediate-mode run whose
earlier stages succeeded, the summary stage is never invoked, the final
report names the recording path but no transcript or summary path, and the
process still exits 0. -/
theorem C6_transcription_failure_flow (raw : RawConfig) (env : SessionEnv)
    (nowFlag : Bool) (fires : Nat) (cfg : Config) (rp1 p : List Char)
    (hcfg : loadConfig raw = Except.ok cfg)
    (himm : nowFlag = true ∨ scheduleOn cfg = false)
    (hmk : env.mkdirOk = true)
    (hj : env.joinResult = Except.ok ())
    (hs : env.startResult = Except.ok rp1)
    (hst : env.stopResult = Except.ok (some p))
    (hp : p ≠ [])
    (ht : env.transcribeResult = Except.error ()) :
    (mainRun raw env nowFlag fires).exitCode = some 0 ∧
    Stage.summarize ∉ (mainRun raw env nowFlag fires).stages ∧
    (mainRun raw env nowFlag fires).report = some (runRecordingSession env) ∧
    (runRecordingSession env).recording = some p ∧
    (runRecordingSession env).transcript = none ∧
    (runRecordingSession env).summary = none ∧
    Stage.summarize ∉ (runRecordingSession env).stages ∧
    (runRecordingSession env).failed = false := by
  have hr : runRecordingSession env =
      ⟨[Stage.mkdirs, Stage.join, Stage.start, Stage.monitor, Stage.stop,
          Stage.quit, Stage.upload] ++ [Stage.transcribe, Stage.report],
        some p, none, none, false⟩ := by
    rw [runRecordingSession, hj, hs, hst, ht]
    simp [hmk, truthyStr, hp]
  have hm : mainRun raw env nowFlag fires =
      ⟨some 0, (runRecordingSession env).stages, some (runRecordingSession env)⟩ := by
    rw [mainRun, hcfg]
    rcases himm with h1 | h2
    · subst h1; rfl
    · cases hnf : nowFlag with
      | true => rfl
      | false => subst hnf; simp [h2]
  rw [hm, hr]
  refine ⟨rfl, ?_, rfl, rfl, rfl, rfl, ?_, rfl⟩ <;>
    · show Stage.summarize ∉
        [Stage.mkdirs, Stage.join, Stage.start, Stage.monitor, Stage.stop,
          Stage.quit, Stage.upload] ++ [Stage.transcribe, Stage.report]
      decide

theorem C6_transcription_failure_flow_witness :
    ((mainRun ⟨some ⟨some "https://zoom.us/j/123456789".data, none, some "Bot".data⟩,
          some ⟨some "local".data, none⟩, none, none, none⟩
        ⟨true, Except.ok (), Except.ok "rec.mp4".data, Except.ok (some "rec.mp4".data),
          true, Except.error (), Except.error ()⟩ true 0).exitCode = some 0) ∧
    ((runRecordingSession
        ⟨true, Except.ok (), Except.ok "rec.mp4".data, Except.ok (some "rec.mp4".data),
          true, Except.error (), Except.error ()⟩).recording = some "rec.mp4".data) ∧
    ((runRecordingSession
        ⟨true, Except.ok (), Except.ok "rec.mp4".data, Except.ok (some "rec.mp4".data),
          true, Except.error (), Except.error ()⟩).transcript = none) := by
  have h := C6_transcription_failure_flow
    ⟨some ⟨some "https://zoom.us/j/123456789".data, none, some "Bot".data⟩,
      some ⟨some "local".data, none⟩, none, none, none⟩
    ⟨true, Except.ok (), Except.ok "rec.mp4".data, Except.ok (some "rec.mp4".data),
      true, Except.error (), Except.error ()⟩
    true 0 _ "rec.mp4".data "rec.mp4".data rfl (Or.inl rfl) rfl rfl rfl rfl
    (by decide) rfl
  exact ⟨h.1, h.2.2.2.1, h.2.2.2.2.1⟩

/- ### Meeting joiner: password and deep link (src/zoomJoiner.js) -/

/-- Matcher for the source regex `[?&]pwd=([^&]+)` anchored at the head. -/
def pwdMatchAt (l : List Char) : Option (List Char) :=
  match l with
  | c :: p :: w :: d :: e :: rest =>
    if (c = '?' ∨ c = '&') ∧ p = 'p' ∧ w = 'w' ∧ d = 'd' ∧ e = '=' then
      let v := rest.takeWhile (fun x => decide (x ≠ '&'))
      if v = [] then none else some v
    else none
  | _ => none

/-- The call `meetingLink.match` with the pwd query-parameter regex from joinZoomMeeting. -/
def findPwd (link : List Char) : Option (List Char) := scanFirst pwdMatchAt link

/-- The password joinZoomMeeting ends up with: the config value when truthy
(`config.zoom.password || ''`), else the first `pwd=` query value of the
link, else the empty string. -/
def effectivePassword (configPw : Option (List Char)) (link : List Char) : List Char :=
  let pw0 := configPw.getD []
  if pw0 = [] then (findPwd link).getD [] else pw0

/-- The sixteen uppercase hexadecimal digit characters. -/
def hexChars : List Char := "0123456789ABCDEF".data

/-- One hexadecimal digit character. -/
def hexDigitUpper (n : Nat) : Char := (hexChars[n]?).getD '0'

/-- Percent-escape of one byte, as encodeURIComponent prints it. -/
def pctByte (b : Nat) : List Char := ['%', hexDigitUpper (b / 16), hexDigitUpper (b % 16)]

/-- The UTF-8 bytes of one code point. -/
def utf8Bytes (n : Nat) : List Nat :=
  if n < 128 then [n]
  else if n < 2048 then [192 + n / 64, 128 + n % 64]
  else if n < 65536 then [224 + n / 4096, 128 + n / 64 % 64, 128 + n % 64]
  else [240 + n / 262144, 128 + n / 4096 % 64, 128 + n / 64 % 64, 128 + n % 64]

/-- The characters encodeURIComponent leaves unescaped. -/
def isUnreservedURI (c : Char) : Bool :=
  (decide ('A' ≤ c) && decide (c ≤ 'Z')) ||
  (decide ('a' ≤ c) && decide (c ≤ 'z')) ||
  isDigit c ||
  decide (c = '-') || decide (c = '_') || decide (c = '.') || decide (c = '!') ||
  decide (c = '~') || decide (c = '*') || decide (c = Char.ofNat 39) ||
  decide (c = '(') || decide (c = ')')

/-- JavaScript encodeURIComponent: unreserved characters pass through and
every other character becomes the percent-escapes of its UTF-8 bytes. -/
def encodeURIComponent (s : List Char) : List Char :=
  (s.map (fun c =>
    if isUnreservedURI c then [c]
    else ((utf8Bytes c.toNat).map pctByte).flatten)).flatten

/-- The deep link built by joinZoomMeeting: confno, then the pwd parameter
exactly when the password is truthy, then uname. -/
def buildZoomUrl (meetingId pw displayName : List Char) : List Char :=
  "zoommtg://zoom.us/join?confno=".data ++ meetingId ++
    (if pw = [] then [] else "&pwd=".data ++ encodeURIComponent pw) ++
    ("&uname=".data ++ encodeURIComponent displayName)

/-- Declarative reading of the spec: the link carries a `pwd=` query
parameter with a nonempty value (a `?` or `&`, the literal `pwd=`, then at
least one character other than `&`). -/
def HasPwdParam (link : List Char) : Prop :=
  ∃ pre c x post, (c = '?' ∨ c = '&') ∧ x ≠ '&' ∧
    link = pre ++ c :: 'p' :: 'w' :: 'd' :: '=' :: x :: post

/-- A `pwd=` parameter marker occurs somewhere in a URI: a `?` or `&`
immediately followed by the literal `pwd=`. -/
def UrlHasPwdMarker (url : List Char) : Prop :=
  ∃ pre c post, (c = '?' ∨ c = '&') ∧
    url = pre ++ c :: 'p' :: 'w' :: 'd' :: '=' :: post

theorem pwdMatchAt_eq_some (l v : List Char) (h : pwdMatchAt l = some v) :
    ∃ c rest, (c = '?' ∨ c = '&') ∧
      l = c :: 'p' :: 'w' :: 'd' :: '=' :: rest ∧
      v = rest.takeWhile (fun x => decide (x ≠ '&')) ∧ v ≠ [] := by
  match l with
  | [] => simp [pwdMatchAt] at h
  | [a] => simp [pwdMatchAt] at h
  | [a, b] => simp [pwdMatchAt] at h
  | [a, b, c] => simp [pwdMatchAt] at h
  | [a, b, c, d] => simp [pwdMatchAt] at h
  | a :: b :: c :: d :: e :: rest =>
    rw [pwdMatchAt] at h
    by_cases hg : (a = '?' ∨ a = '&') ∧ b = 'p' ∧ c = 'w' ∧ d = 'd' ∧ e = '='
    · rw [if_pos hg] at h
      obtain ⟨ha, hb, hc, hd, he⟩ := hg
      subst hb; subst hc; subst hd; subst he
      by_cases hv : rest.takeWhile (fun x => decide (x ≠ '&')) = []
      · rw [if_pos hv] at h; cases h
      · rw [if_neg hv] at h
        simp only [Option.some.injEq] at h
        exact ⟨a, rest, ha, rfl, h.symm, h ▸ hv⟩
    · rw [if_neg hg] at h; cases h

theorem pwdMatchAt_pos (c x : Char) (rest2 : List Char)
    (hc : c = '?' ∨ c = '&') (hx : x ≠ '&') :
    pwdMatchAt (c :: 'p' :: 'w' :: 'd' :: '=' :: x :: rest2) =
      some ((x :: rest2).takeWhile (fun y => decide (y ≠ '&'))) := by
  rw [pwdMatchAt]
  rw [if_pos ⟨hc, rfl, rfl, rfl, rfl⟩]
  have hne : (x :: rest2).takeWhile (fun y => decide (y ≠ '&')) ≠ [] := by
    rw [List.takeWhile_cons_of_pos (by simp [hx])]
    exact fun hh => by cases hh
  rw [if_neg hne]

theorem findPwd_sound (link v : List Char) (h : findPwd link = some v) :
    ∃ pre c rest, (c = '?' ∨ c = '&') ∧
      link = pre ++ c :: 'p' :: 'w' :: 'd' :: '=' :: rest ∧
      v = rest.takeWhile (fun x => decide (x ≠ '&')) ∧ v ≠ [] := by
  obtain ⟨pre, suf, hdec, hmat⟩ := scanFirst_sound pwdMatchAt link v h
  obtain ⟨c, rest, hc, hsuf, hv, hne⟩ := pwdMatchAt_eq_some suf v hmat
  exact ⟨pre, c, rest, hc, by rw [hdec, hsuf], hv, hne⟩

theorem findPwd_complete (link : List Char) (h : HasPwdParam link) :
    findPwd link ≠ none := by
  obtain ⟨pre, c, x, post, hc, hx, hdec⟩ := h
  have hm := pwdMatchAt_pos c x post hc hx
  subst hdec
  exact scanFirst_complete pwdMatchAt pre c ('p' :: 'w' :: 'd' :: '=' :: x :: post) _ hm

theorem findPwd_some_hasPwd (link v : List Char) (h : findPwd link = some v) :
    HasPwdParam link := by
  obtain ⟨pre, c, rest, hc, hdec, hv, hne⟩ := findPwd_sound link v h
  have hrest : rest.takeWhile (fun x => decide (x ≠ '&')) ≠ [] := hv ▸ hne
  obtain ⟨x, t, hr, hx⟩ := takeWhile_ne_nil_head _ rest hrest
  refine ⟨pre, c, x, t, hc, by simpa using hx, ?_⟩
  rw [hdec, hr]

theorem hexDigitUpper_mem (m : Nat) : hexDigitUpper m ∈ hexChars := by
  rw [hexDigitUpper]
  cases h : hexChars[m]? with
  | none => decide
  | some x =>
    rw [Option.getD_some]
    obtain ⟨hlt, he⟩ := List.getElem?_eq_some_iff.mp h
    exact he ▸ hexChars.getElem_mem hlt

theorem encodeURIComponent_chars (s : List Char) (x : Char)
    (hx : x ∈ encodeURIComponent s) :
    isUnreservedURI x = true ∨ x = '%' ∨ x ∈ hexChars := by
  rw [encodeURIComponent, List.mem_flatten] at hx
  obtain ⟨l, hl, hxl⟩ := hx
  rw [List.mem_map] at hl
  obtain ⟨c, _hc, hfc⟩ := hl
  by_cases hu : isUnreservedURI c
  · rw [if_pos hu] at hfc
    rw [← hfc] at hxl
    rw [List.mem_singleton] at hxl
    subst hxl
    exact Or.inl hu
  · rw [if_neg hu] at hfc
    rw [← hfc, List.mem_flatten] at hxl
    obtain ⟨pb, hpb, hxpb⟩ := hxl
    rw [List.mem_map] at hpb
    obtain ⟨b, _hb, hpbe⟩ := hpb
    rw [← hpbe] at hxpb
    rw [pctByte, List.mem_cons, List.mem_cons, List.mem_singleton] at hxpb
    rcases hxpb with h | h | h
    · exact Or.inr (Or.inl h)
    · exact Or.inr (Or.inr (h ▸ hexDigitUpper_mem (b / 16)))
    · exact Or.inr (Or.inr (h ▸ hexDigitUpper_mem (b % 16)))

theorem encode_avoids (s : List Char) (x : Char) (hx : x ∈ encodeURIComponent s) :
    x ≠ '&' ∧ x ≠ '?' ∧ x ≠ '=' := by
  rcases encodeURIComponent_chars s x hx with h | h | h
  · refine ⟨?_, ?_, ?_⟩ <;> rintro rfl <;> revert h <;> decide
  · subst h; exact ⟨by decide, by decide, by decide⟩
  · refine ⟨?_, ?_, ?_⟩ <;> rintro rfl <;> revert h <;> decide

theorem count_encode_amp (s : List Char) : (encodeURIComponent s).count '&' = 0 := by
  rw [List.count_eq_zero]
  intro h
  exact (encode_avoids s '&' h).1 rfl

theorem count_encode_qm (s : List Char) : (encodeURIComponent s).count '?' = 0 := by
  rw [List.count_eq_zero]
  intro h
  exact (encode_avoids s '?' h).2.1 rfl

theorem count_digits_amp (mid : List Char) (h : ∀ c ∈ mid, isDigit c = true) :
    mid.count '&' = 0 := by
  rw [List.count_eq_zero]
  intro hm
  exact absurd (h _ hm) (by decide)

theorem count_digits_qm (mid : List Char) (h : ∀ c ∈ mid, isDigit c = true) :
    mid.count '?' = 0 := by
  rw [List.count_eq_zero]
  intro hm
  exact absurd (h _ hm) (by decide)

theorem split_at_unique (x : Char) :
    ∀ (a c b d : List Char), x ∉ a → x ∉ c →
      a ++ x :: b = c ++ x :: d → a = c ∧ b = d := by
  intro a
  induction a with
  | nil =>
    intro c b d _ hc h
    cases c with
    | nil =>
      simp only [List.nil_append] at h
      injection h with _ h2
      exact ⟨rfl, h2⟩
    | cons c0 cs =>
      simp only [List.nil_append, List.cons_append] at h
      injection h with h1 _
      exact absurd h1 (List.ne_of_not_mem_cons hc)
  | cons a0 as ih =>
    intro c b d ha hc h
    cases c with
    | nil =>
      simp only [List.cons_append, List.nil_append] at h
      injection h with h1 _
      exact absurd h1.symm (List.ne_of_not_mem_cons ha)
    | cons c0 cs =>
      simp only [List.cons_append] at h
      injection h with h1 h2
      obtain ⟨hac, hbd⟩ := ih cs b d
        (fun hm => ha (List.mem_cons_of_mem _ hm))
        (fun hm => hc (List.mem_cons_of_mem _ hm)) h2
      exact ⟨by rw [h1, hac], hbd⟩

theorem count_one_split_unique (x : Char) (l a b c d : List Char)
    (hcount : l.count x = 1) (h1 : l = a ++ x :: b) (h2 : l = c ++ x :: d) :
    a = c ∧ b = d := by
  have ha : x ∉ a := by
    have hs := h1 ▸ hcount
    rw [List.count_append, List.count_cons_self] at hs
    exact List.count_eq_zero.mp (by omega)
  have hc : x ∉ c := by
    have hs := h2 ▸ hcount
    rw [List.count_append, List.count_cons_self] at hs
    exact List.count_eq_zero.mp (by omega)
  exact split_at_unique x a c b d ha hc (h1 ▸ h2)

theorem buildZoomUrl_nopwd_no_marker (meetingId displayName : List Char)
    (hdig : ∀ c ∈ meetingId, isDigit c = true) :
    ¬ UrlHasPwdMarker (buildZoomUrl meetingId [] displayName) := by
  intro hmark
  have hurl : buildZoomUrl meetingId [] displayName =
      "zoommtg://zoom.us/join?confno=".data ++ meetingId ++
        ("&uname=".data ++ encodeURIComponent displayName) := by
    simp [buildZoomUrl]
  have hcq : (buildZoomUrl meetingId [] displayName).count '?' = 1 := by
    rw [hurl]
    rw [List.count_append, List.count_append, List.count_append]
    rw [count_digits_qm meetingId hdig, count_encode_qm displayName]
    decide
  have hca : (buildZoomUrl meetingId [] displayName).count '&' = 1 := by
    rw [hurl]
    rw [List.count_append, List.count_append, List.count_append]
    rw [count_digits_amp meetingId hdig, count_encode_amp displayName]
    decide
  have hsplitq : buildZoomUrl meetingId [] displayName =
      "zoommtg://zoom.us/join".data ++ '?' ::
        ("confno=".data ++ (meetingId ++
          ("&uname=".data ++ encodeURIComponent displayName))) := by
    rw [hurl]
    rw [show ("zoommtg://zoom.us/join?confno=".data : List Char) =
      "zoommtg://zoom.us/join".data ++ '?' :: "confno=".data from rfl]
    simp only [List.append_assoc, List.cons_append]
  have hsplita : buildZoomUrl meetingId [] displayName =
      ("zoommtg://zoom.us/join?confno=".data ++ meetingId) ++ '&' ::
        ("uname=".data ++ encodeURIComponent displayName) := by
    rw [hurl]
    rw [show ("&uname=".data : List Char) = '&' :: "uname=".data from rfl]
    simp only [List.append_assoc, List.cons_append]
  obtain ⟨pre, c, post, hc, heq⟩ := hmark
  rcases hc with hc | hc
  · subst hc
    have hu := count_one_split_unique '?' (buildZoomUrl meetingId [] displayName)
      pre ('p' :: 'w' :: 'd' :: '=' :: post)
      "zoommtg://zoom.us/join".data
      ("confno=".data ++ (meetingId ++
        ("&uname=".data ++ encodeURIComponent displayName)))
      hcq heq hsplitq
    have h2 := hu.2
    rw [show ("confno=".data : List Char) = 'c' :: "onfno=".data from rfl,
      List.cons_append] at h2
    injection h2 with hx _
    exact absurd hx (by decide)
  · subst hc
    have hu := count_one_split_unique '&' (buildZoomUrl meetingId [] displayName)
      pre ('p' :: 'w' :: 'd' :: '=' :: post)
      ("zoommtg://zoom.us/join?confno=".data ++ meetingId)
      ("uname=".data ++ encodeURIComponent displayName)
      hca heq hsplita
    have h2 := hu.2
    rw [show ("uname=".data : List Char) = 'u' :: "name=".data from rfl,
      List.cons_append] at h2
    injection h2 with hx _
    exact absurd hx (by decide)

theorem effectivePassword_config (pw link : List Char) (hne : pw ≠ []) :
    effectivePassword (some pw) link = pw := by
  simp [effectivePassword, hne]

theorem effectivePassword_unset (configPw : Option (List Char)) (link : List Char)
    (h : configPw = none ∨ configPw = some []) :
    effectivePassword configPw link = (findPwd link).getD [] := by
  rcases h with h | h <;> subst h <;> simp [effectivePassword]

/-- C3: the pwd parameter of the deep link.  A truthy configured password is
carried percent-encoded as the pwd parameter; with no configured password but
a `pwd=` query parameter in the link, the first such value (every character
up to the next `&`) is extracted and carried percent-encoded; with neither,
the deep link consists of only the confno and uname parts and contains no
pwd parameter marker anywhere. -/
theorem C3_password_selection (configPw : Option (List Char))
    (link displayName meetingId : List Char)
    (hdig : ∀ c ∈ meetingId, isDigit c = true) :
    (∀ pw, configPw = some pw → pw ≠ [] →
      buildZoomUrl meetingId (effectivePassword configPw link) displayName =
        "zoommtg://zoom.us/join?confno=".data ++ meetingId ++
          ("&pwd=".data ++ encodeURIComponent pw) ++
          ("&uname=".data ++ encodeURIComponent displayName)) ∧
    ((configPw = none ∨ configPw = some []) → HasPwdParam link →
      ∃ v, findPwd link = some v ∧ v ≠ [] ∧ (∀ x ∈ v, x ≠ '&') ∧
        (∃ pre c rest, (c = '?' ∨ c = '&') ∧
          link = pre ++ c :: 'p' :: 'w' :: 'd' :: '=' :: rest ∧
          v = rest.takeWhile (fun x => decide (x ≠ '&'))) ∧
        buildZoomUrl meetingId (effectivePassword configPw link) displayName =
          "zoommtg://zoom.us/join?confno=".data ++ meetingId ++
            ("&pwd=".data ++ encodeURIComponent v) ++
            ("&uname=".data ++ encodeURIComponent displayName)) ∧
    ((configPw = none ∨ configPw = some []) → ¬ HasPwdParam link →
      buildZoomUrl meetingId (effectivePassword configPw link) displayName =
        "zoommtg://zoom.us/join?confno=".data ++ meetingId ++
          ("&uname=".data ++ encodeURIComponent displayName) ∧
      ¬ UrlHasPwdMarker
        (buildZoomUrl meetingId (effectivePassword configPw link) displayName)) := by
  refine ⟨?_, ?_, ?_⟩
  · intro pw hpw hne
    subst hpw
    rw [effectivePassword_config pw link hne]
    rw [buildZoomUrl, if_neg hne]
  · intro hunset hp
    have hfpne := findPwd_complete link hp
    cases hfp : findPwd link with
    | none => exact absurd hfp hfpne
    | some v =>
      obtain ⟨pre, c, rest, hc, hdec, hv, hne⟩ := findPwd_sound link v hfp
      refine ⟨v, rfl, hne, ?_, ⟨pre, c, rest, hc, hdec, hv⟩, ?_⟩
      · intro x hxv
        have := List.mem_takeWhile_imp (hv ▸ hxv)
        simpa using this
      · have hep : effectivePassword configPw link = v := by
          rw [effectivePassword_unset configPw link hunset, hfp, Option.getD_some]
        rw [hep, buildZoomUrl, if_neg hne]
  · intro hunset hnp
    have hfp : findPwd link = none := by
      cases hfp : findPwd link with
      | none => rfl
      | some v => exact absurd (findPwd_some_hasPwd link v hfp) hnp
    have hep : effectivePassword configPw link = [] := by
      rw [effectivePassword_unset configPw link hunset, hfp]
      rfl
    rw [hep]
    constructor
    · simp [buildZoomUrl]
    · exact buildZoomUrl_nopwd_no_marker meetingId displayName hdig

theorem C3_password_selection_witness :
    ∃ v, findPwd "https://zoom.us/j/123456789?pwd=abc".data = some v ∧ v ≠ [] ∧
      (∀ x ∈ v, x ≠ '&') ∧
      (∃ pre c rest, (c = '?' ∨ c = '&') ∧
        "https://zoom.us/j/123456789?pwd=abc".data =
          pre ++ c :: 'p' :: 'w' :: 'd' :: '=' :: rest ∧
        v = rest.takeWhile (fun x => decide (x ≠ '&'))) ∧
      buildZoomUrl "123456789".data
          (effectivePassword none "https://zoom.us/j/123456789?pwd=abc".data)
          "Zoom Recorder".data =
        "zoommtg://zoom.us/join?confno=".data ++ "123456789".data ++
          ("&pwd=".data ++ encodeURIComponent v) ++
          ("&uname=".data ++ encodeURIComponent "Zoom Recorder".data) :=
  (C3_password_selection none "https://zoom.us/j/123456789?pwd=abc".data
      "Zoom Recorder".data "123456789".data (by decide)).2.1
    (Or.inl rfl)
    ⟨"https://zoom.us/j/123456789".data, '?', 'a', "bc".data,
      Or.inl rfl, by decide, by decide⟩
